import Mathlib

/-!
Shallow embedding of the `disposable_redis` Go package
(EverythingMe/disposable-redis, file `disposable_redis.go`).

The package supervises short-lived `redis-server` subprocesses: it launches
one on a given or random port, detects early exit during a 100 ms grace
period, polls for TCP readiness, parses the INFO command output, attaches a
fresh instance as a slave of an existing one, and kills the process on Stop.

The embedding models the OS / network environment (process start and exit,
dial attempts, command results) as explicit oracle parameters; time is
measured in milliseconds as natural numbers.  Errors are opaque strings
(`Err`); `Option Err` is a Go `error` value (`none` = `nil`).
-/

namespace DisposableRedis

/-- Go `error` values are opaque here; `none` models `nil`. -/
abbrev Err := String

/-- Constant `MaxRetries = 10` from the `const` block. -/
def MaxRetries : Nat := 10

/-- Constant `LaunchWaitTimeout = 100 * time.Millisecond`, in ms. -/
def LaunchWaitTimeout : Nat := 100

/-- The `Server` struct: `cmd` (the process handle) is modelled implicitly by
the oracles passed to each operation; `port` and `running` are kept. -/
structure Server where
  port : Nat
  running : Bool
deriving DecidableEq, Repr

/-- Which event wins the `select` race in `Server.run`: either the
goroutine's `cmd.Wait()` result arrives on the channel before the
`LaunchWaitTimeout` timer (`exitedEarly e`, where `e` is the `Wait` error —
`none` when the process exited with status 0), or the timer fires first
(`timerFired`). -/
inductive RunOutcome where
  | exitedEarly (exitErr : Option Err)
  | timerFired
deriving DecidableEq, Repr

/-- Method `Server.run`: `ret := cmd.Start()`; then the `select` either receives the
early exit error `e` from the watcher goroutine and returns it, or the timer
fires and `ret` is returned. -/
def Server.run (startErr : Option Err) (o : RunOutcome) : Option Err :=
  match o with
  | .exitedEarly e => e
  | .timerFired => startErr

/-- Function `NewServer`: builds the command for the given port, constructs the
`Server` record with `running: false`, calls `run`; on a non-nil error
returns `(nil, err)`, otherwise sets `running = true` and returns the
server. -/
def NewServer (port : Nat) (startErr : Option Err) (o : RunOutcome) :
    Option Server × Option Err :=
  let r : Server := { port := port, running := false }
  match Server.run startErr o with
  | some e => (none, some e)
  | none => (some { r with running := true }, none)

/-- The port picked on one attempt of `NewServerRandomPort`:
`uint16(rand.Int31n(0xffff-1025) + 1025)`.  `rand.Int31n n` is uniform on
`[0, n)`, modelled as `d % 64510` for an arbitrary draw `d`; the `uint16`
conversion truncates mod `2^16`. -/
def randomPort (d : Nat) : Nat :=
  (d % (0xffff - 1025) + 1025) % 2 ^ 16

/-- One attempt of the `NewServerRandomPort` loop: attempt `i` calls
`NewServer` on the port drawn from `draws i`, with launch environment
`env i` (start error and race outcome). -/
def attemptResult (draws : Nat → Nat) (env : Nat → Option Err × RunOutcome)
    (i : Nat) : Option Server × Option Err :=
  NewServer (randomPort (draws i)) (env i).1 (env i).2

/-- The `for i := 0; i < MaxRetries; i++` loop of `NewServerRandomPort`:
`fuel` is the number of remaining iterations, `err` the current value of the
`err` variable (initially `nil`).  A nil-error attempt returns `(r, nil)`
at once; when the loop ends, `(nil, err)` is returned. -/
def nsrpLoop (draws : Nat → Nat) (env : Nat → Option Err × RunOutcome) :
    Nat → Nat → Option Err → Option Server × Option Err
  | _, 0, err => (none, err)
  | i, fuel + 1, _ =>
    match attemptResult draws env i with
    | (r, none) => (r, none)
    | (_, some e) => nsrpLoop draws env (i + 1) fuel (some e)

/-- Function `NewServerRandomPort`: run the attempt loop `MaxRetries` times starting
from attempt `0` with `err = nil`. -/
def NewServerRandomPort (draws : Nat → Nat)
    (env : Nat → Option Err × RunOutcome) : Option Server × Option Err :=
  nsrpLoop draws env 0 MaxRetries none

/-- Result of `Server.Stop`, recording the state of the receiver after the
call, the returned error, and whether `cmd.Process.Kill()` and `cmd.Wait()`
were reached. -/
structure StopResult where
  server : Server
  err : Option Err
  killAttempted : Bool
  waitAttempted : Bool
deriving DecidableEq, Repr

/-- Method `Server.Stop`: if not running, return nil immediately; otherwise clear
`running`, call `Kill` (outcome given by the `killErr` oracle); a kill error
is returned without waiting, otherwise `cmd.Wait()` is called and nil is
returned. -/
def Server.Stop (s : Server) (killErr : Option Err) : StopResult :=
  if s.running = false then
    { server := s, err := none, killAttempted := false, waitAttempted := false }
  else
    let s1 : Server := { s with running := false }
    match killErr with
    | some e =>
      { server := s1, err := some e, killAttempted := true, waitAttempted := false }
    | none =>
      { server := s1, err := none, killAttempted := true, waitAttempted := true }

/-- The polling loop of `Server.WaitReady`.  Time advances in milliseconds:
`now` is the current time, `deadline = timeout` (the loop starts at `0`),
`dial t` is the result of `redigo.Dial` at time `t` (`none` = connected),
and `last` is the current value of the `err` variable (initially `nil`).  A
failed dial records the error and sleeps 5 ms; a successful dial closes the
connection and returns nil; once `now` reaches the deadline the last
recorded error is returned.

The `fuel` argument only bounds the recursion so the definition is
structural: each iteration advances `now` by 5 ms, so starting with
`fuel = deadline` the fuel can run out (after `deadline` iterations, at
`now = 5 * deadline`) only when `now < deadline` is already false, and in
that case the loop returns `last` exactly as the time check does —
exhausting the fuel never changes the result of the Go loop. -/
def waitReadyLoop (dial : Nat → Option Err) (deadline : Nat) :
    Nat → Nat → Option Err → Option Err
  | 0, _, last => last
  | fuel + 1, now, last =>
    if now < deadline then
      match dial now with
      | none => none
      | some e => waitReadyLoop dial deadline fuel (now + 5) (some e)
    else last

/-- Method `Server.WaitReady`: poll from time `0` until `timeout`, starting with a
nil `err` variable. -/
def Server.WaitReady (timeout : Nat) (dial : Nat → Option Err) : Option Err :=
  waitReadyLoop dial timeout timeout 0 none

/-- The time of the last dial attempt `Server.WaitReady` performs before a
positive `timeout`: attempts happen at `0, 5, 10, …`, the last one at the
greatest multiple of `5` below `timeout`. -/
def lastPollTime (timeout : Nat) : Nat := 5 * ((timeout - 1) / 5)

/-- Method `Server.Port`. -/
def Server.Port (s : Server) : Nat := s.port

/-- Method `Server.Addr`: `fmt.Sprintf("localhost:%d", r.port)`. -/
def Server.Addr (s : Server) : String := "localhost:" ++ toString s.port

/-! ### `Server.Info`: parsing the INFO reply

Go strings are byte slices; the reply is modelled as a `List Char`
(adequate for the ASCII separators `\r\n`, `:` and `#` the code looks at).
`strings.Split` is translated field by field. -/

/-- Go `strings.Split(s, string(sep))` for a one-character separator: splits at
every occurrence, yielding `count sep + 1` fields. -/
def splitOnChar (sep : Char) : List Char → List (List Char)
  | [] => [[]]
  | c :: rest =>
    if c = sep then [] :: splitOnChar sep rest
    else
      match splitOnChar sep rest with
      | f :: fs => (c :: f) :: fs
      | [] => [[c]]

/-- Go `strings.Split(info, "\r\n")`: splits at every (non-overlapping,
left-to-right) occurrence of the two-character separator. -/
def splitCRLF : List Char → List (List Char)
  | [] => [[]]
  | '\r' :: '\n' :: rest => [] :: splitCRLF rest
  | c :: rest =>
    match splitCRLF rest with
    | f :: fs => (c :: f) :: fs
    | [] => [[c]]

/-- The Go map built by `Server.Info`, as a lookup function.  `updateMap m k
v` is the assignment `ret[k] = v`. -/
def updateMap (m : List Char → Option (List Char)) (k v : List Char) :
    List Char → Option (List Char) :=
  fun k' => if k' = k then some v else m k'

/-- The `for _, line := range lines` loop of `Server.Info`: skip a line that
is empty or starts with `'#'`; split the rest on `':'` and record the pair
when exactly two fields result. -/
def infoLoop : List (List Char) → (List Char → Option (List Char)) →
    (List Char → Option (List Char))
  | [], m => m
  | line :: rest, m =>
    if line.length = 0 ∨ line.head? = some '#' then infoLoop rest m
    else
      match splitOnChar ':' line with
      | [k, v] => infoLoop rest (updateMap m k v)
      | _ => infoLoop rest m

/-- The parsing part of `Server.Info` (the dial and the INFO command are
modelled by the oracles of the callers): split the reply on `"\r\n"` and run
the line loop on an empty map. -/
def Server.Info (s : List Char) : List Char → Option (List Char) :=
  infoLoop (splitCRLF s) (fun _ => none)

/-- A line `Server.Info` keeps: non-empty, not starting with `'#'`, and
splitting on `':'` into exactly two fields; `lineKV` returns its key/value
pair, and `none` for a skipped line. -/
def lineKV (line : List Char) : Option (List Char × List Char) :=
  if line.length = 0 ∨ line.head? = some '#' then none
  else
    match splitOnChar ':' line with
    | [k, v] => some (k, v)
    | _ => none

/-- The key/value pairs of the well-formed lines of a reply, in order. -/
def wfPairs (s : List Char) : List (List Char × List Char) :=
  (splitCRLF s).filterMap lineKV

/-- Reference lookup for characterizing the Go map `Server.Info` builds:
the value of the last pair with the given key, scanning left to right
(later assignments overwrite earlier ones). -/
def lastValue (ps : List (List Char × List Char)) (k : List Char) :
    Option (List Char) :=
  ps.foldl (fun acc p => if k = p.1 then some p.2 else acc) none

/-! ### `Server.NewSlaveOf` -/

/-- The environment of one `NewSlaveOf` call: the oracles consumed by the
inner `NewServerRandomPort` call, the dial attempts of the `WaitReady(100ms)`
call, the result of the `redigo.Dial` to the new server, of the `SLAVEOF`
command, and — per attempt of the convergence poll — the outcome of
`srv.Info()` (a connection/command error, or the raw INFO reply). -/
structure SlaveEnv where
  createDraws : Nat → Nat
  createEnv : Nat → Option Err × RunOutcome
  waitDial : Nat → Option Err
  dialErr : Option Err
  slaveofErr : Option Err
  infoReply : Nat → Err ⊕ List Char

/-- Result of `NewSlaveOf`: the returned server and error, plus whether
`srv.Stop()` was invoked (via `defer`) on the newly created server before
returning. -/
structure SlaveResult where
  srv : Option Server
  err : Option Err
  stopped : Bool
deriving DecidableEq, Repr

/-- The string `"master_link_status"` as a character list. -/
def linkStatusKey : List Char := "master_link_status".toList

/-- The `for i := 0; i < 100; i++` convergence poll of `NewSlaveOf`:
attempt `i` runs `srv.Info()`; an error is returned (after stopping the
server); otherwise the loop breaks when `info["master_link_status"]`
(the empty string when the key is absent, per Go map indexing) equals
`"up"`, and sleeps 50 ms otherwise.  Returns the `Info` error if one
occurred, else `none`. -/
def slavePoll (infoReply : Nat → Err ⊕ List Char) : Nat → Nat → Option Err
  | _, 0 => none
  | i, fuel + 1 =>
    match infoReply i with
    | .inl e => some e
    | .inr s =>
      if (Server.Info s linkStatusKey).getD [] = "up".toList then none
      else slavePoll infoReply (i + 1) fuel

/-- Method `Server.NewSlaveOf`: create a server on a random port (propagating a
creation failure with nothing to stop), wait 100 ms for readiness, dial it,
issue `SLAVEOF`, then poll `Info` up to 100 times for
`master_link_status == "up"`.  Every error after creation is preceded by
`defer srv.Stop()`.  (The `(none, none)` creation case cannot occur — see
`nsrpLoop_ne_none_none` — and is mapped to an empty result: the Go code
would dereference a nil pointer there.) -/
def Server.NewSlaveOf (env : SlaveEnv) : SlaveResult :=
  match NewServerRandomPort env.createDraws env.createEnv with
  | (_, some e) => { srv := none, err := some e, stopped := false }
  | (none, none) => { srv := none, err := none, stopped := false }
  | (some srv, none) =>
    match Server.WaitReady 100 env.waitDial with
    | some e => { srv := none, err := some e, stopped := true }
    | none =>
      match env.dialErr with
      | some e => { srv := none, err := some e, stopped := true }
      | none =>
        match env.slaveofErr with
        | some e => { srv := none, err := some e, stopped := true }
        | none =>
          match slavePoll env.infoReply 0 100 with
          | some e => { srv := none, err := some e, stopped := true }
          | none => { srv := some srv, err := none, stopped := false }

/-! ## Helper lemmas -/

/-- Shape of a `NewServer` result: either a non-nil error with no server, or
a nil error with a server on the requested port marked running. -/
theorem newServer_shape (port : Nat) (se : Option Err) (o : RunOutcome) :
    (∃ e, NewServer port se o = (none, some e)) ∨
    NewServer port se o = (some { port := port, running := true }, none) := by
  unfold NewServer Server.run
  cases o with
  | exitedEarly e => cases e <;> simp
  | timerFired => cases se <;> simp

/-- Shape of one attempt of the `NewServerRandomPort` loop. -/
theorem attemptResult_cases (draws : Nat → Nat)
    (env : Nat → Option Err × RunOutcome) (i : Nat) :
    (∃ e, attemptResult draws env i = (none, some e)) ∨
    attemptResult draws env i =
      (some { port := randomPort (draws i), running := true }, none) :=
  newServer_shape (randomPort (draws i)) (env i).1 (env i).2

/-- Any server the `NewServerRandomPort` loop returns carries a port
produced by `randomPort` from one of the draws. -/
theorem nsrpLoop_server_port (draws : Nat → Nat)
    (env : Nat → Option Err × RunOutcome) :
    ∀ fuel i err r e, nsrpLoop draws env i fuel err = (some r, e) →
      ∃ j, r.port = randomPort (draws j) := by
  intro fuel
  induction fuel with
  | zero => intro i err r e h; simp [nsrpLoop] at h
  | succ fuel ih =>
    intro i err r e h
    rw [nsrpLoop] at h
    rcases attemptResult_cases draws env i with ⟨e₀, he₀⟩ | he₀ <;>
      simp only [he₀, Prod.mk.injEq, Option.some.injEq] at h
    · exact ih (i + 1) (some e₀) r e h
    · obtain ⟨hr, he⟩ := h
      exact ⟨i, by rw [← hr]⟩

/-- The `NewServerRandomPort` loop never yields `(nil, nil)` once started
with a positive fuel or a non-nil error accumulator. -/
theorem nsrpLoop_ne_none_none (draws : Nat → Nat)
    (env : Nat → Option Err × RunOutcome) :
    ∀ fuel i e, nsrpLoop draws env i fuel (some e) ≠ (none, none) := by
  intro fuel
  induction fuel with
  | zero => intro i e h; simp [nsrpLoop] at h
  | succ fuel ih =>
    intro i e h
    rw [nsrpLoop] at h
    rcases attemptResult_cases draws env i with ⟨e₀, he₀⟩ | he₀ <;>
      simp only [he₀, Prod.mk.injEq] at h
    · exact ih (i + 1) e₀ h
    · simp at h

/-- `NewServerRandomPort` returns a non-nil server or a non-nil error. -/
theorem newServerRandomPort_ne_none_none (draws : Nat → Nat)
    (env : Nat → Option Err × RunOutcome) :
    NewServerRandomPort draws env ≠ (none, none) := by
  intro h
  unfold NewServerRandomPort MaxRetries at h
  rw [nsrpLoop] at h
  rcases attemptResult_cases draws env 0 with ⟨e₀, he₀⟩ | he₀ <;>
    simp only [he₀, Prod.mk.injEq] at h
  · exact nsrpLoop_ne_none_none draws env _ 1 e₀ h
  · simp at h

/-! ## C2: early process exit versus the grace-period timer -/

/-- C2 counterexample: a process that exits before the timer fires *with
exit status 0* (`cmd.Wait()` returns `nil`) does not make the launch fail:
`run` returns the nil channel value, so `NewServer` returns a nil error and
a `Server` marked running — against the claim that every pre-timer exit
yields an error and no running server. -/
theorem newServer_clean_early_exit_counterexample :
    (NewServer 6379 none (RunOutcome.exitedEarly none)).2 = none ∧
    (NewServer 6379 none (RunOutcome.exitedEarly none)).1 =
      some { port := 6379, running := true } :=
  ⟨rfl, rfl⟩

/-- C2 (amended): if the process exits before the timer with a non-nil exit
error, the launch returns that error and no server; if it exits before the
timer with a nil exit error (status 0), or the timer fires first, the
launch result is the `Start` result — a running server on a nil start
error, else the start error and no server. -/
theorem newServer_launch_race (port : Nat) (startErr : Option Err) :
    (∀ e, NewServer port startErr (RunOutcome.exitedEarly (some e)) =
      (none, some e)) ∧
    NewServer port startErr (RunOutcome.exitedEarly none) =
      (some { port := port, running := true }, none) ∧
    (startErr = none → NewServer port startErr RunOutcome.timerFired =
      (some { port := port, running := true }, none)) ∧
    (∀ e, startErr = some e → NewServer port startErr RunOutcome.timerFired =
      (none, some e)) := by
  refine ⟨fun e => rfl, rfl, ?_, ?_⟩
  · rintro rfl; rfl
  · rintro e rfl; rfl

/-- Witness for C2 (amended) at concrete inputs. -/
theorem newServer_launch_race_witness :
    NewServer 7000 none (RunOutcome.exitedEarly (some ("exit status 1"))) =
      (none, some ("exit status 1")) ∧
    NewServer 7000 none RunOutcome.timerFired =
      (some { port := 7000, running := true }, none) :=
  ⟨(newServer_launch_race 7000 none).1 ("exit status 1"),
   (newServer_launch_race 7000 none).2.2.1 rfl⟩

/-! ## C8: `Stop` is idempotent -/

/-- C8: `Stop` on a server whose `running` flag is false returns nil without
touching `Kill` or `Wait`, and a second `Stop` after any first `Stop` (with
any kill outcome) is such a no-op, since the first call always leaves
`running` false. -/
theorem stop_idempotent (s : Server) (ke ke₂ : Option Err) :
    (s.running = false →
      Server.Stop s ke =
        { server := s, err := none, killAttempted := false,
          waitAttempted := false }) ∧
    Server.Stop (Server.Stop s ke).server ke₂ =
      { server := (Server.Stop s ke).server, err := none,
        killAttempted := false, waitAttempted := false } := by
  cases hr : s.running <;> cases ke <;>
    simp [Server.Stop, hr]

/-- Witness for C8: a stopped-then-stopped server and a never-started
server, with a kill oracle that would fail if consulted. -/
theorem stop_idempotent_witness :
    Server.Stop (Server.Stop { port := 1025, running := true } none).server
        none =
      { server := (Server.Stop { port := 1025, running := true } none).server,
        err := none, killAttempted := false, waitAttempted := false } ∧
    Server.Stop { port := 1025, running := false } (some ("kill failed")) =
      { server := { port := 1025, running := false }, err := none,
        killAttempted := false, waitAttempted := false } :=
  ⟨(stop_idempotent { port := 1025, running := true } none none).2,
   (stop_idempotent { port := 1025, running := false } (some ("kill failed"))
      none).1 rfl⟩

/-! ## C10: `Stop` clears `running` before killing -/

/-- C10: on a running server whose kill fails, `Stop` returns the kill error
without waiting, but has already cleared `running`; hence any subsequent
`Stop` returns nil immediately without retrying the kill. -/
theorem stop_error_path_clears_running (s : Server) (e : Err)
    (ke₂ : Option Err) (h : s.running = true) :
    Server.Stop s (some e) =
      { server := { s with running := false }, err := some e,
        killAttempted := true, waitAttempted := false } ∧
    Server.Stop { s with running := false } ke₂ =
      { server := { s with running := false }, err := none,
        killAttempted := false, waitAttempted := false } := by
  constructor
  · simp [Server.Stop, h]
  · simp [Server.Stop]

/-- Witness for C10: a running server whose kill fails, then a second `Stop`
whose kill oracle would fail again if consulted. -/
theorem stop_error_path_clears_running_witness :
    Server.Stop { port := 1025, running := true } (some ("kill failed")) =
      { server := { port := 1025, running := false }, err := some ("kill failed"),
        killAttempted := true, waitAttempted := false } ∧
    Server.Stop { port := 1025, running := false } (some ("kill failed again")) =
      { server := { port := 1025, running := false }, err := none,
        killAttempted := false, waitAttempted := false } :=
  stop_error_path_clears_running { port := 1025, running := true }
    ("kill failed") (some ("kill failed again")) rfl

/-! ## C9: port immutability and `running` transitions -/

/-- C9: the port is fixed at creation and preserved by every operation
(`Stop` is the only state-changing one; `Port` and `Addr` are pure reads),
and `running` never transitions false→true outside `NewServer`: `Stop`
never raises it, while a successful `NewServer` builds the record with
`running := false` and flips it to true exactly once. -/
theorem server_port_and_running_invariants (s : Server) (ke : Option Err)
    (port : Nat) (se : Option Err) (o : RunOutcome) :
    (Server.Stop s ke).server.port = s.port ∧
    Server.Port s = s.port ∧
    Server.Addr s = "localhost:" ++ toString s.port ∧
    (∀ r e₂, NewServer port se o = (some r, e₂) →
      r.port = port ∧ r.running = true ∧ e₂ = none) ∧
    ((Server.Stop s ke).server.running = true → s.running = true) := by
  refine ⟨?_, rfl, rfl, ?_, ?_⟩
  · cases hr : s.running <;> cases ke <;> simp [Server.Stop, hr]
  · intro r e₂ h
    rcases newServer_shape port se o with ⟨e₀, he₀⟩ | he₀ <;>
      rw [he₀] at h <;>
      simp only [Prod.mk.injEq, Option.some.injEq] at h
    · exact absurd h.1 (by simp)
    · obtain ⟨hr, he⟩ := h
      subst hr
      exact ⟨rfl, rfl, he.symm⟩
  · cases hr : s.running <;> cases ke <;> simp [Server.Stop, hr]

/-- Witness for C9 at concrete inputs, discharging the `NewServer` success
hypothesis with a concrete successful launch. -/
theorem server_port_and_running_invariants_witness :
    (Server.Stop { port := 2026, running := true } none).server.port = 2026 ∧
    ({ port := 3000, running := true } : Server).port = 3000 ∧
    ({ port := 3000, running := true } : Server).running = true :=
  have h := server_port_and_running_invariants { port := 2026, running := true }
    none 3000 none RunOutcome.timerFired
  have h4 := h.2.2.2.1 { port := 3000, running := true } none rfl
  ⟨h.1, h4.1, h4.2.1⟩

/-! ## C5: the random port range -/

/-- C5 counterexample: the claim says ports are drawn uniformly from
1025–65535, but port 65535 is unreachable: `rand.Int31n(0xffff-1025)` is at
most 64509, so the drawn port is at most 65534. -/
theorem randomPort_top_port_unreachable :
    ¬ ∃ d, randomPort d = 65535 := by
  rintro ⟨d, hd⟩
  have h16 : (2 : Nat) ^ 16 = 65536 := by norm_num
  unfold randomPort at hd
  rw [h16] at hd
  omega

/-- C5 (amended): every attempted port is drawn uniformly at random from
the range [1025, 65534] — each such port corresponds to exactly one value
of the underlying uniform draw `rand.Int31n(0xffff-1025)` (surjectivity and
injectivity below) — and consequently for every successful
`NewServerRandomPort` call the returned server's port lies in
[1025, 65534] (hence also within the claimed [1025, 65535]). -/
theorem randomPort_uniform_range :
    (∀ d, 1025 ≤ randomPort d ∧ randomPort d ≤ 65534) ∧
    (∀ p, 1025 ≤ p → p ≤ 65534 → ∃ d, d < 0xffff - 1025 ∧ randomPort d = p) ∧
    (∀ d₁ d₂, d₁ < 0xffff - 1025 → d₂ < 0xffff - 1025 →
      randomPort d₁ = randomPort d₂ → d₁ = d₂) ∧
    (∀ draws env r e, NewServerRandomPort draws env = (some r, e) →
      1025 ≤ r.port ∧ r.port ≤ 65534) := by
  have h16 : (2 : Nat) ^ 16 = 65536 := by norm_num
  have hrange : ∀ d, 1025 ≤ randomPort d ∧ randomPort d ≤ 65534 := by
    intro d
    unfold randomPort
    rw [h16]
    omega
  refine ⟨hrange, ?_, ?_, ?_⟩
  · intro p hlo hhi
    refine ⟨p - 1025, by omega, ?_⟩
    unfold randomPort
    rw [h16]
    omega
  · intro d₁ d₂ h₁ h₂ heq
    unfold randomPort at heq
    rw [h16] at heq
    omega
  · intro draws env r e h
    obtain ⟨j, hj⟩ := nsrpLoop_server_port draws env MaxRetries 0 none r e h
    rw [hj]
    exact hrange (draws j)

/-- Witness for C5 (amended): port 2026 is attainable, draw 3 lands in
range, and a concrete successful `NewServerRandomPort` call returns a port
in range. -/
theorem randomPort_uniform_range_witness :
    (∃ d, d < 0xffff - 1025 ∧ randomPort d = 2026) ∧
    (1025 ≤ randomPort 3 ∧ randomPort 3 ≤ 65534) ∧
    (1025 ≤ ({ port := 1025, running := true } : Server).port ∧
      ({ port := 1025, running := true } : Server).port ≤ 65534) :=
  ⟨randomPort_uniform_range.2.1 2026 (by omega) (by omega),
   randomPort_uniform_range.1 3,
   randomPort_uniform_range.2.2.2 (fun _ => 0)
     (fun _ => (none, RunOutcome.timerFired))
     { port := 1025, running := true } none (by decide)⟩

/-! ## C6: the retry contract of `NewServerRandomPort` -/

/-- If attempts `i, …, i + j - 1` all fail and attempt `i + j` succeeds with
server `r` (with `j` within the remaining fuel), the loop returns
`(r, nil)`. -/
theorem nsrpLoop_first_success (draws : Nat → Nat)
    (env : Nat → Option Err × RunOutcome) :
    ∀ j fuel i err r, j < fuel →
      (∀ m, m < j → ∃ e, attemptResult draws env (i + m) = (none, some e)) →
      attemptResult draws env (i + j) = (some r, none) →
      nsrpLoop draws env i fuel err = (some r, none) := by
  intro j
  induction j with
  | zero =>
    intro fuel i err r hj _ hsucc
    cases fuel with
    | zero => omega
    | succ fuel =>
      simp only [Nat.add_zero] at hsucc
      rw [nsrpLoop]
      simp only [hsucc]
  | succ j ih =>
    intro fuel i err r hj hfail hsucc
    cases fuel with
    | zero => omega
    | succ fuel =>
      obtain ⟨e₀, he₀⟩ := hfail 0 (Nat.succ_pos j)
      simp only [Nat.add_zero] at he₀
      rw [nsrpLoop]
      simp only [he₀]
      apply ih fuel (i + 1) (some e₀) r (by omega)
      · intro m hm
        obtain ⟨e, he⟩ := hfail (m + 1) (by omega)
        exact ⟨e, by rw [show i + 1 + m = i + (m + 1) from by omega]; exact he⟩
      · rw [show i + 1 + j = i + (j + 1) from by omega]
        exact hsucc

/-- If every attempt within the fuel fails, the loop returns `(nil, e)`
where `e` is the error of the last attempt. -/
theorem nsrpLoop_all_fail (draws : Nat → Nat)
    (env : Nat → Option Err × RunOutcome) :
    ∀ fuel i err e, 0 < fuel →
      (∀ m, m < fuel → ∃ eₘ, attemptResult draws env (i + m) = (none, some eₘ)) →
      attemptResult draws env (i + (fuel - 1)) = (none, some e) →
      nsrpLoop draws env i fuel err = (none, some e) := by
  intro fuel
  induction fuel with
  | zero => intro i err e h; omega
  | succ fuel ih =>
    intro i err e _ hfail hlast
    obtain ⟨e₀, he₀⟩ := hfail 0 (Nat.succ_pos fuel)
    simp only [Nat.add_zero] at he₀
    rw [nsrpLoop]
    simp only [he₀]
    cases fuel with
    | zero =>
      have hlast₂ : attemptResult draws env i = (none, some e) := by
        simpa using hlast
      rw [he₀] at hlast₂
      simp only [Prod.mk.injEq, Option.some.injEq] at hlast₂
      rw [nsrpLoop, hlast₂.2]
    | succ fuel =>
      apply ih (i + 1) (some e₀) e (Nat.succ_pos fuel)
      · intro m hm
        obtain ⟨eₘ, heₘ⟩ := hfail (m + 1) (by omega)
        exact ⟨eₘ, by rw [show i + 1 + m = i + (m + 1) from by omega]; exact heₘ⟩
      · rw [show i + 1 + (fuel + 1 - 1) = i + (fuel + 1 + 1 - 1) from by omega]
        exact hlast

/-- The loop result depends only on the attempts within its fuel. -/
theorem nsrpLoop_congr (draws draws₂ : Nat → Nat)
    (env env₂ : Nat → Option Err × RunOutcome) :
    ∀ fuel i err,
      (∀ m, m < fuel →
        attemptResult draws env (i + m) = attemptResult draws₂ env₂ (i + m)) →
      nsrpLoop draws env i fuel err = nsrpLoop draws₂ env₂ i fuel err := by
  intro fuel
  induction fuel with
  | zero => intro i err _; rfl
  | succ fuel ih =>
    intro i err h
    have h0 : attemptResult draws env i = attemptResult draws₂ env₂ i := by
      simpa using h 0 (Nat.succ_pos fuel)
    rw [nsrpLoop, nsrpLoop, ← h0]
    rcases attemptResult_cases draws env i with ⟨e₀, he₀⟩ | he₀ <;>
      simp only [he₀]
    exact ih (i + 1) (some e₀) (fun m hm => by
      rw [show i + 1 + m = i + (m + 1) from by omega]
      exact h (m + 1) (by omega))

/-- C6: `NewServerRandomPort` returns the server of the first nil-error
attempt; if all `MaxRetries = 10` attempts fail it returns nil together
with the error of the last (tenth) attempt; and the result never depends on
attempts beyond the first ten. -/
theorem newServerRandomPort_retry_contract (draws : Nat → Nat)
    (env : Nat → Option Err × RunOutcome) :
    (∀ j r, j < MaxRetries →
      (∀ m, m < j → ∃ e, attemptResult draws env m = (none, some e)) →
      attemptResult draws env j = (some r, none) →
      NewServerRandomPort draws env = (some r, none)) ∧
    (∀ e, (∀ m, m < MaxRetries →
        ∃ eₘ, attemptResult draws env m = (none, some eₘ)) →
      attemptResult draws env (MaxRetries - 1) = (none, some e) →
      NewServerRandomPort draws env = (none, some e)) ∧
    (∀ draws₂ env₂,
      (∀ m, m < MaxRetries →
        attemptResult draws env m = attemptResult draws₂ env₂ m) →
      NewServerRandomPort draws env = NewServerRandomPort draws₂ env₂) := by
  refine ⟨?_, ?_, ?_⟩
  · intro j r hj hfail hsucc
    exact nsrpLoop_first_success draws env j MaxRetries 0 none r hj
      (fun m hm => by simpa using hfail m hm) (by simpa using hsucc)
  · intro e hfail hlast
    exact nsrpLoop_all_fail draws env MaxRetries 0 none e
      (by norm_num [MaxRetries])
      (fun m hm => by simpa using hfail m hm) (by simpa using hlast)
  · intro draws₂ env₂ h
    exact nsrpLoop_congr draws draws₂ env env₂ MaxRetries 0 none
      (fun m hm => by simpa using h m hm)

/-- Witness for C6: with the first two attempts failing and the third
succeeding, the third server is returned; with every attempt failing, the
last error is returned. -/
theorem newServerRandomPort_retry_contract_witness :
    NewServerRandomPort (fun _ => 0)
      (fun i => if i < 2 then (some ("port busy"), RunOutcome.timerFired)
                else (none, RunOutcome.timerFired)) =
      (some { port := 1025, running := true }, none) ∧
    NewServerRandomPort (fun _ => 0)
      (fun _ => (some ("port busy"), RunOutcome.timerFired)) =
      (none, some ("port busy")) := by
  constructor
  · exact (newServerRandomPort_retry_contract _ _).1 2
      { port := 1025, running := true } (by norm_num [MaxRetries])
      (fun m hm => ⟨("port busy"), by interval_cases m <;> rfl⟩) rfl
  · exact (newServerRandomPort_retry_contract _ _).2.1 ("port busy")
      (fun m _ => ⟨("port busy"), rfl⟩) rfl

/-! ## C1: no failure path of `NewSlaveOf` leaks the new instance -/

/-- C1: once the random-port server has been successfully created, every
error return of `NewSlaveOf` (readiness-wait failure, dial failure,
`SLAVEOF` failure, or an `Info` error during the convergence poll) happens
with `srv.Stop()` invoked on the new server before returning. -/
theorem newSlaveOf_failure_stops_instance (env : SlaveEnv) (srv : Server)
    (hc : NewServerRandomPort env.createDraws env.createEnv = (some srv, none))
    (e : Err) (he : (Server.NewSlaveOf env).err = some e) :
    (Server.NewSlaveOf env).stopped = true := by
  unfold Server.NewSlaveOf at he ⊢
  simp only [hc] at he ⊢
  cases hw : Server.WaitReady 100 env.waitDial with
  | some e₁ => simp [hw]
  | none =>
    simp only [hw] at he ⊢
    cases hd : env.dialErr with
    | some e₁ => simp [hd]
    | none =>
      simp only [hd] at he ⊢
      cases hs : env.slaveofErr with
      | some e₁ => simp [hs]
      | none =>
        simp only [hs] at he ⊢
        cases hp : slavePoll env.infoReply 0 100 with
        | some e₁ => simp [hp]
        | none =>
          simp only [hp] at he
          exact absurd he (by simp)

/-- Witness for C1: a concrete environment whose `SLAVEOF` command fails
after a successful creation; the result records that the new server was
stopped. -/
theorem newSlaveOf_failure_stops_instance_witness :
    (Server.NewSlaveOf
      { createDraws := fun _ => 0,
        createEnv := fun _ => (none, RunOutcome.timerFired),
        waitDial := fun _ => none,
        dialErr := none,
        slaveofErr := some ("slaveof command failed"),
        infoReply := fun _ => Sum.inr [] }).stopped = true :=
  newSlaveOf_failure_stops_instance _ { port := 1025, running := true }
    (by decide) ("slaveof command failed") (by decide)

/-! ## C3: exhausting the convergence poll is not fatal -/

/-- The convergence poll returns nil when every attempt within its budget
yields an `Info` reply whose `master_link_status` differs from `"up"`. -/
theorem slavePoll_never_up (infoReply : Nat → Err ⊕ List Char) :
    ∀ fuel i, (∀ m, m < fuel → ∃ s, infoReply (i + m) = Sum.inr s ∧
        (Server.Info s linkStatusKey).getD [] ≠ "up".toList) →
      slavePoll infoReply i fuel = none := by
  intro fuel
  induction fuel with
  | zero => intro i _; rfl
  | succ fuel ih =>
    intro i h
    obtain ⟨s, hs, hne⟩ := h 0 (Nat.succ_pos fuel)
    simp only [Nat.add_zero] at hs
    rw [slavePoll]
    simp only [hs, if_neg hne]
    exact ih (i + 1) (fun m hm => by
      rw [show i + 1 + m = i + (m + 1) from by omega]
      exact h (m + 1) (by omega))

/-- C3: when creation, readiness, dial and `SLAVEOF` all succeed and the
convergence poll exhausts its 100-attempt budget without
`master_link_status` ever equalling `"up"` (and without an `Info` error),
`NewSlaveOf` returns the new server with a nil error — exhaustion is not
treated as fatal. -/
theorem newSlaveOf_poll_exhaustion_not_fatal (env : SlaveEnv) (srv : Server)
    (hc : NewServerRandomPort env.createDraws env.createEnv = (some srv, none))
    (hw : Server.WaitReady 100 env.waitDial = none)
    (hd : env.dialErr = none) (hs : env.slaveofErr = none)
    (hi : ∀ m, m < 100 → ∃ s, env.infoReply m = Sum.inr s ∧
        (Server.Info s linkStatusKey).getD [] ≠ "up".toList) :
    Server.NewSlaveOf env = { srv := some srv, err := none, stopped := false } := by
  have hp : slavePoll env.infoReply 0 100 = none :=
    slavePoll_never_up env.infoReply 100 0
      (fun m hm => by simpa using hi m hm)
  unfold Server.NewSlaveOf
  simp only [hc, hw, hd, hs, hp]

/-- Witness for C3: a concrete environment whose every `Info` reply reports
`master_link_status:down`; the new server is returned with a nil error. -/
theorem newSlaveOf_poll_exhaustion_witness :
    Server.NewSlaveOf
      { createDraws := fun _ => 0,
        createEnv := fun _ => (none, RunOutcome.timerFired),
        waitDial := fun _ => none,
        dialErr := none,
        slaveofErr := none,
        infoReply := fun _ => Sum.inr ("master_link_status:down".toList) } =
      { srv := some { port := 1025, running := true }, err := none,
        stopped := false } :=
  newSlaveOf_poll_exhaustion_not_fatal _ { port := 1025, running := true }
    (by decide) (by decide) rfl rfl
    (fun m _ => ⟨("master_link_status:down".toList), rfl, by decide⟩)

/-! ## C4: what `WaitReady` returns on timeout -/

/-- Once the deadline has passed, the loop returns the accumulated error
unchanged, whatever fuel remains. -/
theorem waitReadyLoop_done (dial : Nat → Option Err) (deadline : Nat) :
    ∀ fuel now last, ¬ now < deadline →
      waitReadyLoop dial deadline fuel now last = last := by
  intro fuel
  cases fuel <;> intro now last h <;> simp [waitReadyLoop, h]

/-- With every dial failing, the loop returns the dial error observed at
the last poll time before the deadline. -/
theorem waitReadyLoop_all_fail (dial : Nat → Option Err) (deadline : Nat)
    (hd : ∀ t, dial t ≠ none) :
    ∀ fuel now last, deadline ≤ now + 5 * fuel → now < deadline →
      waitReadyLoop dial deadline fuel now last =
        dial (now + 5 * ((deadline - now - 1) / 5)) := by
  intro fuel
  induction fuel with
  | zero => intro now last hfuel hlt; omega
  | succ fuel ih =>
    intro now last hfuel hlt
    obtain ⟨e, he⟩ : ∃ e, dial now = some e := by
      cases h : dial now
      · exact absurd h (hd now)
      · exact ⟨_, rfl⟩
    rw [waitReadyLoop, if_pos hlt]
    simp only [he]
    by_cases h5 : now + 5 < deadline
    · rw [ih (now + 5) (some e) (by omega) h5]
      congr 1
      omega
    · rw [waitReadyLoop_done dial deadline fuel (now + 5) (some e) h5]
      have h0 : (deadline - now - 1) / 5 = 0 := by omega
      rw [h0, Nat.mul_zero, Nat.add_zero, he]

/-- C4 counterexample: with a timeout of 0 against a port that refuses
every connection, the deadline check fails before the first poll, so the
`err` variable is still nil and `WaitReady` returns nil — not a non-nil
connection-refused error as the claim states. -/
theorem waitReady_zero_timeout_counterexample :
    Server.WaitReady 0 (fun _ => some ("connection refused")) = none := rfl

/-- C4 (amended): whenever at least one poll occurs (`0 < timeout`) and no
connection attempt succeeds, `WaitReady` returns exactly the connection
error observed at the last poll (the greatest multiple of 5 ms below the
timeout) — a non-nil error, not a generic timeout marker; with a timeout of
0 no poll occurs and nil is returned (see the counterexample). -/
theorem waitReady_returns_last_dial_error (timeout : Nat)
    (dial : Nat → Option Err) (hpos : 0 < timeout)
    (hd : ∀ t, dial t ≠ none) :
    Server.WaitReady timeout dial = dial (lastPollTime timeout) ∧
    Server.WaitReady timeout dial ≠ none := by
  have h := waitReadyLoop_all_fail dial timeout hd timeout 0 none
    (by omega) hpos
  have h₂ : (0 : Nat) + 5 * ((timeout - 0 - 1) / 5) = lastPollTime timeout := by
    unfold lastPollTime
    omega
  constructor
  · rw [Server.WaitReady, h, h₂]
  · rw [Server.WaitReady, h]
    exact hd _

/-- Witness for C4 (amended): with a 12 ms timeout and dials failing with an
error naming the poll time, the error of the last poll (at 10 ms) is
returned. -/
theorem waitReady_returns_last_dial_error_witness :
    Server.WaitReady 12 (fun t => some (toString t)) = some ("10") := by
  rw [(waitReady_returns_last_dial_error 12 (fun t => some (toString t))
    (by omega) (fun t => by simp)).1]
  decide

/-! ## C7: the `Info` parsing contract -/

/-- Folding the map-update over a pair list from an arbitrary accumulator
equals the fold from `none` with the accumulator as fallback. -/
theorem infoFold_init (k : List Char) (ps : List (List Char × List Char)) :
    ∀ init, ps.foldl (fun acc p => if k = p.1 then some p.2 else acc) init =
      (lastValue ps k).or init := by
  induction ps with
  | nil => intro init; simp [lastValue]
  | cons p ps ih =>
    intro init
    rw [List.foldl_cons, ih]
    have hR : lastValue (p :: ps) k =
        (lastValue ps k).or (if k = p.1 then some p.2 else none) := by
      rw [lastValue, List.foldl_cons, ih]
    rw [hR, Option.or_assoc]
    congr 1
    by_cases h : k = p.1 <;> simp [h]

/-- Peeling one pair off `lastValue`: later pairs take precedence. -/
theorem lastValue_cons (k : List Char) (p : List Char × List Char)
    (ps : List (List Char × List Char)) :
    lastValue (p :: ps) k =
      (lastValue ps k).or (if k = p.1 then some p.2 else none) := by
  rw [lastValue, List.foldl_cons, infoFold_init k ps]

/-- One step of the `Info` line loop, phrased through `lineKV`: a kept line
updates the map with its pair, a skipped line leaves it unchanged. -/
theorem infoLoop_cons (line : List Char) (rest : List (List Char))
    (m : List Char → Option (List Char)) :
    infoLoop (line :: rest) m =
      match lineKV line with
      | some p => infoLoop rest (updateMap m p.1 p.2)
      | none => infoLoop rest m := by
  rw [infoLoop, lineKV]
  by_cases hskip : line.length = 0 ∨ line.head? = some '#'
  · rw [if_pos hskip, if_pos hskip]
  · rw [if_neg hskip, if_neg hskip]
    rcases splitOnChar ':' line with _ | ⟨a, _ | ⟨b, _ | ⟨c, t⟩⟩⟩ <;> rfl

/-- The `Info` line loop computes the last well-formed binding per key, with
the initial map as fallback. -/
theorem infoLoop_lookup (k : List Char) :
    ∀ (lines : List (List Char)) (m : List Char → Option (List Char)),
      infoLoop lines m k = (lastValue (lines.filterMap lineKV) k).or (m k) := by
  intro lines
  induction lines with
  | nil => intro m; simp [infoLoop, lastValue]
  | cons line rest ih =>
    intro m
    rw [infoLoop_cons, List.filterMap_cons]
    cases hkv : lineKV line with
    | none =>
      show infoLoop rest m k = (lastValue (rest.filterMap lineKV) k).or (m k)
      exact ih m
    | some p =>
      show infoLoop rest (updateMap m p.1 p.2) k =
        (lastValue (p :: rest.filterMap lineKV) k).or (m k)
      rw [ih, lastValue_cons, Option.or_assoc]
      congr 1
      rw [updateMap]
      by_cases h : k = p.1 <;> simp [h]

/-- A split never produces an empty field list. -/
theorem splitOnChar_ne_nil (sep : Char) : ∀ l, splitOnChar sep l ≠ [] := by
  intro l
  cases l with
  | nil => simp [splitOnChar]
  | cons c rest =>
    rw [splitOnChar]
    by_cases h : c = sep
    · simp [h]
    · simp only [if_neg h]
      cases hs : splitOnChar sep rest <;> simp

/-- A split yields one more field than there are separator occurrences, so
`len(kv) == 2` in the Go code means exactly one `':'` in the line. -/
theorem splitOnChar_length (sep : Char) :
    ∀ l : List Char, (splitOnChar sep l).length = l.count sep + 1 := by
  intro l
  induction l with
  | nil => simp [splitOnChar]
  | cons c rest ih =>
    rw [splitOnChar]
    by_cases h : c = sep
    · simp [h, List.count_cons, ih]
    · simp only [if_neg h]
      cases hs : splitOnChar sep rest with
      | nil => exact absurd hs (splitOnChar_ne_nil sep rest)
      | cons f fs =>
        have hl : (f :: fs).length = rest.count sep + 1 := by
          rw [← hs]; exact ih
        simp only [List.length_cons] at hl
        simp [List.count_cons, h, hl]

/-- A line contributes a pair exactly when it is non-empty, does not start
with `'#'`, and contains exactly one `':'`. -/
theorem lineKV_isSome_iff (line : List Char) :
    (lineKV line).isSome = true ↔
      line ≠ [] ∧ line.head? ≠ some '#' ∧ line.count ':' = 1 := by
  have hcount : (splitOnChar ':' line).length = line.count ':' + 1 :=
    splitOnChar_length ':' line
  rw [lineKV]
  by_cases hskip : line.length = 0 ∨ line.head? = some '#'
  · rw [if_pos hskip]
    simp only [Option.isSome_none, Bool.false_eq_true, false_iff]
    rintro ⟨h1, h2, h3⟩
    rcases hskip with h | h
    · exact h1 (List.length_eq_zero.mp h)
    · exact h2 h
  · rw [if_neg hskip]
    push_neg at hskip
    obtain ⟨hne, hhash⟩ := hskip
    have hne₂ : line ≠ [] := fun h => hne (by simp [h])
    cases hs : splitOnChar ':' line with
    | nil => exact absurd hs (splitOnChar_ne_nil ':' line)
    | cons f fs =>
      rw [hs] at hcount
      cases fs with
      | nil =>
        simp only [List.length_cons, List.length_nil] at hcount
        simp only [Option.isSome_none, Bool.false_eq_true, false_iff]
        rintro ⟨h1, h2, h3⟩
        omega
      | cons g gs =>
        cases gs with
        | nil =>
          simp only [List.length_cons, List.length_nil] at hcount
          simp only [Option.isSome_some, true_iff]
          exact ⟨hne₂, hhash, by omega⟩
        | cons q qs =>
          simp only [List.length_cons] at hcount
          simp only [Option.isSome_none, Bool.false_eq_true, false_iff]
          rintro ⟨h1, h2, h3⟩
          omega

/-- C7 counterexample: with two well-formed lines sharing the key `a`, the
pair of the first line is a well-formed pair of the reply yet is absent
from the returned map — the later assignment overwrote it — so the map
does not contain exactly the well-formed pairs. -/
theorem info_duplicate_key_counterexample :
    ("a".toList, "1".toList) ∈ wfPairs ("a:1\r\na:2".toList) ∧
    Server.Info ("a:1\r\na:2".toList) ("a".toList) ≠ some ("1".toList) ∧
    Server.Info ("a:1\r\na:2".toList) ("a".toList) = some ("2".toList) :=
  ⟨by decide, by decide, by decide⟩

/-- C7 (amended): for every INFO response text, looking up a key in the map
returned by `Info` yields the value of the *last* line (split on `\r\n`)
that is non-empty, does not start with `'#'`, and contains exactly one
`':'` and whose key matches — i.e. the map holds exactly the well-formed
pairs, with later duplicate keys overwriting earlier ones; blank, comment
and malformed lines are skipped without error. -/
theorem info_map_characterization :
    (∀ s k, Server.Info s k = lastValue (wfPairs s) k) ∧
    (∀ line, (lineKV line).isSome = true ↔
      line ≠ [] ∧ line.head? ≠ some '#' ∧ line.count ':' = 1) := by
  constructor
  · intro s k
    rw [Server.Info, wfPairs, infoLoop_lookup k (splitCRLF s) (fun _ => none)]
    simp
  · exact lineKV_isSome_iff

/-- Witness for C7 (amended) on a concrete reply with a blank line, a
comment line and two well-formed lines. -/
theorem info_map_characterization_witness :
    Server.Info ("a:1\r\n# c\r\n\r\nb:2".toList) ("b".toList) =
      lastValue (wfPairs ("a:1\r\n# c\r\n\r\nb:2".toList)) ("b".toList) ∧
    (lineKV ("b:2".toList)).isSome = true :=
  ⟨info_map_characterization.1 ("a:1\r\n# c\r\n\r\nb:2".toList) ("b".toList),
   (info_map_characterization.2 ("b:2".toList)).mpr
     ⟨by decide, by decide, by decide⟩⟩

end DisposableRedis
